import Mathlib

/-!
Verification development for the comfyui-imgloader frontend.

The repository contains three variants of the ImageLoader node controller:
* `part_000` — the full 4-source variant (widgets `image`, `filepath`,
  `base64`, `pasted_base64`) with the 4-entry clearing-rule table;
* `part_001` — the reduced 3-source variant (no clipboard paste);
* `js/imgloader.js` — a variant over `filepath`, `base64`, `pasted_base64`
  whose clearing pass clears every other source and fires no callbacks.

All three are embedded below as explicit state-transition functions over
record states holding the widget string values, the floating preview
element and the pending timers, translated line by line from the source.
-/

namespace ImgLoader

/-! ### JavaScript string primitives -/

/-- Whitespace as recognized by the JavaScript `String.prototype.trim`
(ASCII whitespace, line terminators, NBSP and the BOM). -/
def isJsWs (c : Char) : Bool :=
  c = ' ' || c = '\t' || c = '\n' || c = '\r' ||
  c = '\x0b' || c = '\x0c' || c.toNat = 160 || c.toNat = 65279

/-- Truthiness of `value && value.trim()` for a string `value`: the string
has at least one non-whitespace character (which also implies it is
non-empty, matching the `value &&` part of the guard). -/
def activeVal (v : String) : Bool :=
  v.data.any (fun c => !(isJsWs c))

/-- Character-list core of the JavaScript `String.prototype.startsWith`. -/
def jsStartsWithL : List Char → List Char → Bool
  | [], _ => true
  | _ :: _, [] => false
  | p :: ps, c :: cs => p = c && jsStartsWithL ps cs

/-- JavaScript `s.startsWith(p)`. -/
def jsStartsWith (s p : String) : Bool :=
  jsStartsWithL p.data s.data

/-- JavaScript `s.substring(0, n)`. -/
def jsSubstringTo (s : String) (n : Nat) : String :=
  String.mk (s.data.take n)

/-- JavaScript `s.split(',')` on the underlying character list. -/
def splitComma : List Char → List (List Char)
  | [] => [[]]
  | c :: rest =>
    let r := splitComma rest
    if c = ',' then [] :: r
    else
      match r with
      | h :: t => (c :: h) :: t
      | [] => [[c]]

/-! ### The `atob` decode probe (WHATWG forgiving-base64) -/

/-- ASCII whitespace stripped by the forgiving-base64 decode. -/
def isB64Ws (c : Char) : Bool :=
  c = ' ' || c = '\t' || c = '\n' || c = '\x0c' || c = '\r'

/-- Characters of the base64 alphabet. -/
def isB64Alpha (c : Char) : Bool :=
  (65 ≤ c.toNat && c.toNat ≤ 90) || (97 ≤ c.toNat && c.toNat ≤ 122) ||
  (48 ≤ c.toNat && c.toNat ≤ 57) || c = '+' || c = '/'

/-- Removal of one or two trailing padding characters. -/
def stripPad (l : List Char) : List Char :=
  if l.getLast? = some '=' then
    if l.dropLast.getLast? = some '=' then l.dropLast.dropLast else l.dropLast
  else l

/-- Whitespace-stripped and padding-stripped input of the forgiving-base64
decode: ASCII whitespace is removed, and up to two trailing padding
characters are removed when the length is a multiple of four. -/
def atobPrep (s : String) : List Char :=
  if (s.data.filter (fun c => !(isB64Ws c))).length % 4 = 0 then
    stripPad (s.data.filter (fun c => !(isB64Ws c)))
  else s.data.filter (fun c => !(isB64Ws c))

/-- Success predicate of the JavaScript `atob` (forgiving-base64 decode):
after the preparation step, the length must not be congruent to 1 mod 4
and every character must belong to the base64 alphabet. -/
def atobOk (s : String) : Bool :=
  (decide ((atobPrep s).length % 4 ≠ 1)) && (atobPrep s).all isB64Alpha

/-! ### Base64 validation (`validateBase64Input`), shared by all variants -/

/-- Check from `validateBase64Input`: `const [header, data] = value.split(',')`
followed by `data && data.length > 0` — the segment between the first and
second comma exists and is non-empty. -/
def payloadOk (v : String) : Bool :=
  match splitComma v.data with
  | _ :: d :: _ => !(d.isEmpty)
  | _ => false

/-- Acceptance predicate of `validateBase64Input` as implemented: a
`data:image/`-prefixed value is accepted when its first comma-delimited
payload is non-empty; any other value is accepted when `atob` succeeds on
its first 100 characters. -/
def acceptsBase64 (v : String) : Bool :=
  if jsStartsWith v "data:image/" then payloadOk v
  else atobOk (jsSubstringTo v 100)

/-- Acceptance criterion in the words of the specification: prefixed
`data:image/` with a non-empty payload after the first comma, OR the first
100 characters decode successfully as base64. -/
def specAcceptB64 (v : String) : Bool :=
  (jsStartsWith v "data:image/" && payloadOk v) || atobOk (jsSubstringTo v 100)

/-! ### The part_000 controller (full 4-source variant) -/

/-- Widget names of the full variant (`pasted` is the `pasted_base64` widget). -/
inductive WName
  | image | filepath | base64 | pasted
deriving DecidableEq

/-- Keys accepted by `clearOtherInputs` in part_000. -/
inductive ActiveInput
  | paste | filepath | base64 | image
deriving DecidableEq

/-- The floating preview `<div>`: its `display` style and `innerHTML`
content (abstracted to the image URL or placeholder it shows). -/
structure PreviewElt where
  visible : Bool
  content : String
deriving DecidableEq

/-- State of one `ImageLoaderNodeHandler` instance (part_000): the four
widget string values, whether the `base64` and `pasted` widgets carry a
host callback (the `image` and `filepath` callbacks always exist after
setup, because setup installs the wrapping callback), the preview element
(with its attachment to `document.body`), the registered event listeners,
drag state, the `node._imageLoaderPreview` back-reference, the log of
synthetic callback invocations fired by clearing passes, the pending
deferred preview re-checks and the pending async image-load probes. -/
structure Ctrl where
  image : String
  filepath : String
  base64 : String
  pasted : String
  base64HasCb : Bool
  pastedHasCb : Bool
  prevElt : Option PreviewElt
  prevAttached : Bool
  listeners : Nat
  dragging : Bool
  origColors : Option (String × String)
  bgcolor : String
  color : String
  nodePrevRef : Bool
  events : List WName
  deferred : List ActiveInput
  pendingLoads : List String
deriving DecidableEq

/-- Controller state right after `initialize()`: all sources empty, the
preview element created, hidden and attached to `document.body`, two
listeners registered, the node back-reference stored. -/
def initCtrl : Ctrl where
  image := ""
  filepath := ""
  base64 := ""
  pasted := ""
  base64HasCb := false
  pastedHasCb := false
  prevElt := some ⟨false, ""⟩
  prevAttached := true
  listeners := 2
  dragging := false
  origColors := none
  bgcolor := "default"
  color := "default"
  nodePrevRef := true
  events := []
  deferred := []
  pendingLoads := []

/-- Read a widget value. -/
def getW : WName → Ctrl → String
  | .image, s => s.image
  | .filepath, s => s.filepath
  | .base64, s => s.base64
  | .pasted, s => s.pasted

/-- Write a widget value. -/
def setW : WName → String → Ctrl → Ctrl
  | .image, v, s => { s with image := v }
  | .filepath, v, s => { s with filepath := v }
  | .base64, v, s => { s with base64 := v }
  | .pasted, v, s => { s with pasted := v }

/-- Truthiness of `widget.callback` for each widget: `image` and
`filepath` always carry the wrapping callback after setup; `base64` and
`pasted` carry one exactly when the host supplied one. -/
def hasCbF : WName → Ctrl → Bool
  | .image, _ => true
  | .filepath, _ => true
  | .base64, s => s.base64HasCb
  | .pasted, s => s.pastedHasCb

/-- The `clearingRules` table of part_000, in source order. -/
def clearingRules : ActiveInput → List WName
  | .paste => [.image, .filepath, .base64]
  | .filepath => [.image, .base64]
  | .base64 => [.image, .filepath]
  | .image => [.filepath, .base64]

/-- Body of the `inputsToClear.forEach` loop: when the widget holds a
non-empty value, set it to the empty string and, when it has a callback,
invoke that callback with the empty string (recorded in `events`; the
wrapped callbacks themselves do nothing further on an empty value). -/
def clearWidget (w : WName) (s : Ctrl) : Ctrl :=
  if getW w s = "" then s
  else
    if hasCbF w (setW w "" s) then
      { setW w "" s with events := (setW w "" s).events ++ [w] }
    else setW w "" s

/-- The `hidePreview` method: guarded on the preview element existing. -/
def hidePrevF (s : Ctrl) : Ctrl :=
  { s with prevElt := s.prevElt.map (fun e => { e with visible := false }) }

/-- The `showPreview` method: guarded on the preview element existing,
then sets its content and makes it visible. -/
def showPrevF (url : String) (s : Ctrl) : Ctrl :=
  { s with prevElt := s.prevElt.map (fun _ => ⟨true, url⟩) }

/-- The `clearOtherInputs` method of part_000: clear each widget listed
for the active input, hide the preview, and for non-paste inputs schedule
the 100 ms deferred preview re-check. -/
def clearOtherInputsF (a : ActiveInput) (s : Ctrl) : Ctrl :=
  let s1 := (clearingRules a).foldl (fun acc w => clearWidget w acc) s
  let s2 := hidePrevF s1
  if a = .paste then s2 else { s2 with deferred := s2.deferred ++ [a] }

/-- URL built for base64-like sources: the value itself when already a
data URL, otherwise wrapped with the default PNG data-URL prefix. -/
def b64Url (v : String) : String :=
  if jsStartsWith v "data:" then v else "data:image/png;base64," ++ v

/-- The `updatePreview` method of part_000: no-op without a preview
element; file-path-like sources with a non-blank value start an async
image-load probe; base64-like sources synchronously show the (possibly
wrapped) data URL; otherwise the preview is hidden. -/
def updatePreviewF (a : ActiveInput) (v : String) (s : Ctrl) : Ctrl :=
  match s.prevElt with
  | none => s
  | some _ =>
    match a with
    | .filepath => if activeVal v then { s with pendingLoads := s.pendingLoads ++ [v] } else hidePrevF s
    | .image => if activeVal v then { s with pendingLoads := s.pendingLoads ++ [v] } else hidePrevF s
    | .base64 => if b64Url v = "" then hidePrevF s else showPrevF (b64Url v) s
    | .paste => if b64Url v = "" then hidePrevF s else showPrevF (b64Url v) s

/-- The `validateBase64Input` method: on the data-URL path with a
non-empty payload the preview is updated with the value; on that path
with a missing payload nothing happens; on the raw path a successful
decode probe updates the preview with the wrapped value and a failed
probe hides the preview. Widget values are never touched. -/
def validateB64 (v : String) (s : Ctrl) : Ctrl :=
  if jsStartsWith v "data:image/" then
    if payloadOk v then updatePreviewF .base64 v s else s
  else
    if atobOk (jsSubstringTo v 100) then
      updatePreviewF .base64 ("data:image/png;base64," ++ v) s
    else hidePrevF s

/-- The `input` event handler installed on the base64 widget: the widget
value now equals the typed text; when it is truthy and trims non-empty,
run the clearing pass for `base64` and then validation. -/
def base64InputHandlerF (v : String) (s : Ctrl) : Ctrl :=
  let s0 := { s with base64 := v }
  if activeVal v then validateB64 v (clearOtherInputsF .base64 s0) else s0

/-- The wrapped callback installed on the `image` widget: on a truthy,
non-blank value run the clearing pass and an immediate preview update;
in every case forward the value to the original callback (when present)
and return its result. -/
def wrappedImageCb {ρ : Type} (orig : Option (String → ρ)) (v : String) (s : Ctrl) :
    Ctrl × Option ρ :=
  ((if activeVal v then updatePreviewF .image v (clearOtherInputsF .image s) else s),
   match orig with
   | some f => some (f v)
   | none => none)

/-- The wrapped callback installed on the `filepath` widget. -/
def wrappedFilepathCb {ρ : Type} (orig : Option (String → ρ)) (v : String) (s : Ctrl) :
    Ctrl × Option ρ :=
  ((if activeVal v then updatePreviewF .filepath v (clearOtherInputsF .filepath s) else s),
   match orig with
   | some f => some (f v)
   | none => none)

/-- One activation of a source in part_000: the host (or the
`FileReader.onload` handler, for paste) first stores the new value in the
widget, then the corresponding handler runs. -/
def activateF : ActiveInput → String → Ctrl → Ctrl
  | .image, v, s =>
    let s0 := { s with image := v }
    if activeVal v then updatePreviewF .image v (clearOtherInputsF .image s0) else s0
  | .filepath, v, s =>
    let s0 := { s with filepath := v }
    if activeVal v then updatePreviewF .filepath v (clearOtherInputsF .filepath s0) else s0
  | .base64, v, s => base64InputHandlerF v s
  | .paste, v, s =>
    let s0 := { s with pasted := v }
    updatePreviewF .paste v (clearOtherInputsF .paste s0)

/-- A sequence of activations, applied in order. -/
def run4 (l : List (ActiveInput × String)) (s : Ctrl) : Ctrl :=
  l.foldl (fun acc p => activateF p.1 p.2 acc) s

/-- The body of the deferred `setTimeout` re-check scheduled by
`clearOtherInputs`: re-read the current value of the activated widget and,
when it is truthy, update the preview from it. -/
def runDeferredF : ActiveInput → Ctrl → Ctrl
  | .paste, s => s
  | .image, s => if s.image = "" then s else updatePreviewF .image s.image s
  | .filepath, s => if s.filepath = "" then s else updatePreviewF .filepath s.filepath s
  | .base64, s => if s.base64 = "" then s else updatePreviewF .base64 s.base64 s

/-- The deferred re-check in an exception-aware embedding: every property
access on a possibly-absent object in its source path is behind a guard or
optional chaining, so no branch throws. -/
def runDeferredE (a : ActiveInput) (s : Ctrl) : Except String Ctrl :=
  match a with
  | .paste => Except.ok s
  | .image =>
    if s.image = "" then Except.ok s
    else
      match s.prevElt with
      | none => Except.ok s
      | some _ => Except.ok (updatePreviewF .image s.image s)
  | .filepath =>
    if s.filepath = "" then Except.ok s
    else
      match s.prevElt with
      | none => Except.ok s
      | some _ => Except.ok (updatePreviewF .filepath s.filepath s)
  | .base64 =>
    if s.base64 = "" then Except.ok s
    else
      match s.prevElt with
      | none => Except.ok s
      | some _ => Except.ok (updatePreviewF .base64 s.base64 s)

/-- The `setDragState(false)` call: reset the flag and restore the node
colors when originals were stored. -/
def setDragStateOff (s : Ctrl) : Ctrl :=
  match s.origColors with
  | some bc => { s with dragging := false, bgcolor := bc.1, color := bc.2, origColors := none }
  | none => { s with dragging := false }

/-- `Node.removeChild` on the preview element: throws `NotFoundError`
when the element is not attached to its claimed parent. -/
def removeChildE (s : Ctrl) : Except String Ctrl :=
  if s.prevAttached then Except.ok { s with prevAttached := false }
  else Except.error "NotFoundError"

/-- The `cleanup` method of part_000, with `removeChild` allowed to throw:
drop the listeners, detach the preview element only when
`previewElement?.parentNode` is truthy, reset the drag state and delete
the node back-reference when present. Note that `this.previewElement`
itself is never set to null. -/
def cleanupE (s : Ctrl) : Except String Ctrl :=
  let s1 := { s with listeners := 0 }
  match (if s1.prevAttached then removeChildE s1 else Except.ok s1) with
  | Except.error e => Except.error e
  | Except.ok s2 =>
    let s3 := setDragStateOff s2
    Except.ok (if s3.nodePrevRef then { s3 with nodePrevRef := false } else s3)

/-- Closed form of a (non-throwing) `cleanup` run. -/
def cleanupRun (s : Ctrl) : Ctrl :=
  let s1 := { s with listeners := 0 }
  let s2 := if s1.prevAttached then { s1 with prevAttached := false } else s1
  let s3 := setDragStateOff s2
  if s3.nodePrevRef then { s3 with nodePrevRef := false } else s3

/-! ### Observations on controller states -/

/-- The preview is currently showing (a detached element can still be
marked visible; `previewShown` reports the element style, whatever its
attachment). -/
def previewShown (s : Ctrl) : Bool :=
  match s.prevElt with
  | some e => e.visible
  | none => false

/-- The preview element as seen from the document: present only while
attached to `document.body`. -/
def docPreview (s : Ctrl) : Option PreviewElt :=
  if s.prevAttached then s.prevElt else none

/-- 0 for an empty widget value, 1 otherwise. -/
def bval (x : String) : Nat :=
  if x = "" then 0 else 1

/-- Number of non-empty sources among `image`, `filepath`, `base64`. -/
def nvals3 (s : Ctrl) : Nat :=
  bval (getW .image s) + bval (getW .filepath s) + bval (getW .base64 s)

/-- Number of non-empty sources among all four. -/
def nvals4 (s : Ctrl) : Nat :=
  nvals3 s + bval (getW .pasted s)

/-! ### The part_001 controller (reduced 3-source variant) -/

/-- Widget names of the reduced variant. -/
inductive W3
  | image | filepath | base64
deriving DecidableEq

/-- Keys accepted by `clearOtherInputs` in part_001. -/
inductive Active3
  | filepath | base64 | image
deriving DecidableEq

/-- State of one part_001 handler instance. -/
structure Ctrl3 where
  image : String
  filepath : String
  base64 : String
  base64HasCb : Bool
  prevElt : Option PreviewElt
  events : List W3
  deferred : List Active3
  pendingLoads : List String
deriving DecidableEq

/-- Reduced-variant state right after `initialize()`. -/
def initCtrl3 : Ctrl3 where
  image := ""
  filepath := ""
  base64 := ""
  base64HasCb := false
  prevElt := some ⟨false, ""⟩
  events := []
  deferred := []
  pendingLoads := []

/-- Read a widget value (reduced variant). -/
def getW3 : W3 → Ctrl3 → String
  | .image, s => s.image
  | .filepath, s => s.filepath
  | .base64, s => s.base64

/-- Write a widget value (reduced variant). -/
def setW3 : W3 → String → Ctrl3 → Ctrl3
  | .image, v, s => { s with image := v }
  | .filepath, v, s => { s with filepath := v }
  | .base64, v, s => { s with base64 := v }

/-- Truthiness of `widget.callback` in the reduced variant. -/
def hasCb3 : W3 → Ctrl3 → Bool
  | .image, _ => true
  | .filepath, _ => true
  | .base64, s => s.base64HasCb

/-- The `clearingRules` table of part_001, in source order. -/
def rules3 : Active3 → List W3
  | .filepath => [.image, .base64]
  | .base64 => [.image, .filepath]
  | .image => [.filepath, .base64]

/-- Loop body of the reduced clearing pass. -/
def clearWidget3 (w : W3) (s : Ctrl3) : Ctrl3 :=
  if getW3 w s = "" then s
  else
    if hasCb3 w (setW3 w "" s) then
      { setW3 w "" s with events := (setW3 w "" s).events ++ [w] }
    else setW3 w "" s

/-- The reduced `hidePreview`. -/
def hidePrev3 (s : Ctrl3) : Ctrl3 :=
  { s with prevElt := s.prevElt.map (fun e => { e with visible := false }) }

/-- The reduced `showPreview`. -/
def showPrev3 (url : String) (s : Ctrl3) : Ctrl3 :=
  { s with prevElt := s.prevElt.map (fun _ => ⟨true, url⟩) }

/-- The `clearOtherInputs` method of part_001: clear the listed widgets,
hide the preview, and schedule the 100 ms deferred re-check for every
active input (there is no paste branch in this variant). -/
def clearOtherInputs3 (a : Active3) (s : Ctrl3) : Ctrl3 :=
  let s1 := (rules3 a).foldl (fun acc w => clearWidget3 w acc) s
  let s2 := hidePrev3 s1
  { s2 with deferred := s2.deferred ++ [a] }

/-- The `updatePreview` method of part_001. -/
def updatePreview3 (a : Active3) (v : String) (s : Ctrl3) : Ctrl3 :=
  match s.prevElt with
  | none => s
  | some _ =>
    match a with
    | .filepath => if activeVal v then { s with pendingLoads := s.pendingLoads ++ [v] } else hidePrev3 s
    | .image => if activeVal v then { s with pendingLoads := s.pendingLoads ++ [v] } else hidePrev3 s
    | .base64 => if b64Url v = "" then hidePrev3 s else showPrev3 (b64Url v) s

/-- The `validateBase64Input` method of part_001 (same source text as in
part_000). -/
def validateB64R (v : String) (s : Ctrl3) : Ctrl3 :=
  if jsStartsWith v "data:image/" then
    if payloadOk v then updatePreview3 .base64 v s else s
  else
    if atobOk (jsSubstringTo v 100) then
      updatePreview3 .base64 ("data:image/png;base64," ++ v) s
    else hidePrev3 s

/-- One activation of a source in part_001. -/
def activate3 : Active3 → String → Ctrl3 → Ctrl3
  | .image, v, s =>
    let s0 := { s with image := v }
    if activeVal v then updatePreview3 .image v (clearOtherInputs3 .image s0) else s0
  | .filepath, v, s =>
    let s0 := { s with filepath := v }
    if activeVal v then updatePreview3 .filepath v (clearOtherInputs3 .filepath s0) else s0
  | .base64, v, s =>
    let s0 := { s with base64 := v }
    if activeVal v then validateB64R v (clearOtherInputs3 .base64 s0) else s0

/-- Number of non-empty sources among the three of the reduced variant. -/
def nvalsR (s : Ctrl3) : Nat :=
  bval (getW3 .image s) + bval (getW3 .filepath s) + bval (getW3 .base64 s)

/-! ### The js/imgloader.js controller -/

/-- Input keys of the imgloader.js variant, as iterated by its
`clearOtherInputs` (`['filepath', 'base64', 'paste']`). -/
inductive JsActive
  | filepath | base64 | paste
deriving DecidableEq

/-- Widget names of the imgloader.js variant (no `image` upload widget is
looked up by this variant). -/
inductive JsW
  | filepath | base64 | pasted
deriving DecidableEq

/-- State of one imgloader.js handler instance; `events` logs synthetic
callback invocations (this variant never produces any). -/
structure StJS where
  filepath : String
  base64 : String
  pasted : String
  prevShown : Bool
  events : List JsW
deriving DecidableEq

/-- Read a widget value (imgloader.js variant). -/
def getJS : JsW → StJS → String
  | .filepath, s => s.filepath
  | .base64, s => s.base64
  | .pasted, s => s.pasted

/-- The widget written by each input key (`'paste'` maps to the
`pasted_base64` widget). -/
def jsActiveWidget : JsActive → JsW
  | .filepath => .filepath
  | .base64 => .base64
  | .paste => .pasted

/-- Clear one widget of the imgloader.js variant: the value is set to the
empty string and no callback is invoked. -/
def clearWidgetJS (w : JsW) (s : StJS) : StJS :=
  match w with
  | .filepath => { s with filepath := "" }
  | .base64 => { s with base64 := "" }
  | .pasted => { s with pasted := "" }

/-- The `clearOtherInputs` method of js/imgloader.js: every input other
than the active one has its widget value emptied (no callback fires);
afterwards the preview is hidden unless the active input is `paste`. -/
def clearOtherInputsJS (a : JsActive) (s : StJS) : StJS :=
  let s1 := ([JsActive.filepath, JsActive.base64, JsActive.paste].filter
      (fun i => i ≠ a)).foldl (fun acc i => clearWidgetJS (jsActiveWidget i) acc) s
  if a = .paste then s1 else { s1 with prevShown := false }

/-- The wrapped `filepath` callback of js/imgloader.js: effects on a
truthy non-blank value, then unconditional forwarding to the original
callback. The state effect is abstracted to `clearOtherInputsJS` followed
by the (filepath) preview update, which in this variant just hides the
preview. -/
def jsWrappedFilepathCb {ρ : Type} (orig : Option (String → ρ)) (v : String) (s : StJS) :
    StJS × Option ρ :=
  ((if activeVal v then { clearOtherInputsJS .filepath s with prevShown := false } else s),
   match orig with
   | some f => some (f v)
   | none => none)

/-- A concrete imgloader.js state with all three sources populated. -/
def sJS0 : StJS where
  filepath := "f.png"
  base64 := "QUFB"
  pasted := "data:image/png;base64,AA=="
  prevShown := true
  events := []

/-! ### Specification precedence tables (from the claim text) -/

/-- The full precedence table as worded in the specification: `pasted`
clears {upload, filepath, base64}; `filepath` clears {upload, base64};
`base64` clears {upload, filepath}; `upload` clears {filepath, base64},
where the code widget `image` is the upload source. -/
def specFullClears : ActiveInput → WName → Bool
  | .paste, .image => true
  | .paste, .filepath => true
  | .paste, .base64 => true
  | .paste, .pasted => false
  | .filepath, .image => true
  | .filepath, .base64 => true
  | .filepath, _ => false
  | .base64, .image => true
  | .base64, .filepath => true
  | .base64, _ => false
  | .image, .filepath => true
  | .image, .base64 => true
  | .image, _ => false

/-- The reduced precedence table as worded in the specification:
`filepath` clears {upload, base64}; `base64` clears {upload, filepath};
`upload` clears {filepath, base64}. -/
def specReducedClears : Active3 → W3 → Bool
  | .filepath, .image => true
  | .filepath, .base64 => true
  | .filepath, .filepath => false
  | .base64, .image => true
  | .base64, .filepath => true
  | .base64, .base64 => false
  | .image, .filepath => true
  | .image, .base64 => true
  | .image, .image => false

/-! ### Fuel-indexed model of the callback/clearing mutual recursion -/

/-- Widget values alone, for the reentrancy analysis of part_000. -/
structure V4 where
  image : String
  filepath : String
  base64 : String
  pasted : String
deriving DecidableEq

/-- All-empty widget values. -/
def initV4 : V4 := ⟨"", "", "", ""⟩

/-- Read a widget value. -/
def getV : WName → V4 → String
  | .image, s => s.image
  | .filepath, s => s.filepath
  | .base64, s => s.base64
  | .pasted, s => s.pasted

/-- Write a widget value. -/
def setV : WName → String → V4 → V4
  | .image, v, s => { s with image := v }
  | .filepath, v, s => { s with filepath := v }
  | .base64, v, s => { s with base64 := v }
  | .pasted, v, s => { s with pasted := v }

/-- Widgets whose `callback` field is the controller wrapper (only the
`image` and `filepath` callbacks are replaced in part_000; the `base64`
and `pasted` callbacks remain whatever the host installed). -/
def isWrapped : WName → Bool
  | .image => true
  | .filepath => true
  | .base64 => false
  | .pasted => false

/-- The `clearOtherInputs` key corresponding to a widget activation. -/
def toAct : WName → ActiveInput
  | .image => .image
  | .filepath => .filepath
  | .base64 => .base64
  | .pasted => .paste

/-- Widgets cleared when a given widget callback is activated. -/
def cbRules (w : WName) : List WName :=
  clearingRules (toAct w)

mutual

/-- Fuel-indexed semantics of invoking a widget callback with a value, at
a bounded recursion depth. A wrapped callback on a truthy non-blank value
runs the clearing pass (counted) before forwarding; any other invocation
only forwards. Returns `none` when the fuel bound is hit, otherwise the
resulting widget values and the number of clearing passes executed. -/
def invokeCb : Nat → WName → String → V4 → Option (V4 × Nat)
  | 0, _, _, _ => none
  | fuel + 1, w, v, st =>
    if isWrapped w && activeVal v then
      match clearSeq fuel (cbRules w) st with
      | none => none
      | some (st2, n) => some (st2, n + 1)
    else some (st, 0)

/-- Fuel-indexed semantics of the `inputsToClear.forEach` loop: each
listed widget holding a non-empty value is set to the empty string and
its callback is invoked (recursively) with the empty string. -/
def clearSeq : Nat → List WName → V4 → Option (V4 × Nat)
  | _, [], st => some (st, 0)
  | fuel, w :: ws, st =>
    if getV w st = "" then clearSeq fuel ws st
    else
      match invokeCb fuel w "" (setV w "" st) with
      | none => none
      | some (st2, n) =>
        match clearSeq fuel ws st2 with
        | none => none
        | some (st3, m) => some (st3, n + m)

end

/-- Clearing every widget of a list, as plain value updates. -/
def clearAllV (l : List WName) (st : V4) : V4 :=
  l.foldl (fun acc w => setV w "" acc) st

/-- Closed form of a depth-2 callback invocation. -/
def invokeResult (w : WName) (v : String) (st : V4) : V4 :=
  if isWrapped w && activeVal v then clearAllV (cbRules w) st else st

/-! ### Projection lemmas for the part_000 state -/

@[simp] theorem getW_upd_events (w : WName) (s : Ctrl) (e : List WName) :
    getW w { s with events := e } = getW w s := by cases w <;> rfl

@[simp] theorem getW_upd_deferred (w : WName) (s : Ctrl) (d : List ActiveInput) :
    getW w { s with deferred := d } = getW w s := by cases w <;> rfl

@[simp] theorem getW_upd_pendingLoads (w : WName) (s : Ctrl) (p : List String) :
    getW w { s with pendingLoads := p } = getW w s := by cases w <;> rfl

@[simp] theorem getW_upd_prevElt (w : WName) (s : Ctrl) (p : Option PreviewElt) :
    getW w { s with prevElt := p } = getW w s := by cases w <;> rfl

@[simp] theorem getW_hidePrev (w : WName) (s : Ctrl) :
    getW w (hidePrevF s) = getW w s := by cases w <;> rfl

@[simp] theorem getW_showPrev (w : WName) (u : String) (s : Ctrl) :
    getW w (showPrevF u s) = getW w s := by cases w <;> rfl

theorem getW_setW (w w' : WName) (v : String) (s : Ctrl) :
    getW w' (setW w v s) = if w' = w then v else getW w' s := by
  cases w <;> cases w' <;> simp [getW, setW]

theorem hasCb_setW (w w' : WName) (v : String) (s : Ctrl) :
    hasCbF w' (setW w v s) = hasCbF w' s := by
  cases w <;> cases w' <;> rfl

@[simp] theorem hasCb_upd_events (w : WName) (s : Ctrl) (e : List WName) :
    hasCbF w { s with events := e } = hasCbF w s := by cases w <;> rfl

theorem getW_clearWidget (w w' : WName) (s : Ctrl) :
    getW w' (clearWidget w s) = if w' = w then "" else getW w' s := by
  unfold clearWidget
  by_cases h : getW w s = ""
  · simp only [h, if_true, reduceIte]
    split
    · next he => rw [he]; exact h.symm ▸ rfl
    · rfl
  · simp only [h, if_false, reduceIte]
    split <;> simp [getW_setW]

theorem hasCb_clearWidget (w w' : WName) (s : Ctrl) :
    hasCbF w' (clearWidget w s) = hasCbF w' s := by
  unfold clearWidget
  split
  · rfl
  · split <;> simp [hasCb_setW]

theorem prevElt_setW (w : WName) (v : String) (s : Ctrl) :
    (setW w v s).prevElt = s.prevElt := by cases w <;> rfl

theorem prevElt_clearWidget (w : WName) (s : Ctrl) :
    (clearWidget w s).prevElt = s.prevElt := by
  unfold clearWidget
  split
  · rfl
  · split <;> simp [prevElt_setW]

theorem deferred_setW (w : WName) (v : String) (s : Ctrl) :
    (setW w v s).deferred = s.deferred := by cases w <;> rfl

theorem deferred_clearWidget (w : WName) (s : Ctrl) :
    (clearWidget w s).deferred = s.deferred := by
  unfold clearWidget
  split
  · rfl
  · split <;> simp [deferred_setW]

theorem mem_events_clearWidget {x : WName} {s : Ctrl} (w : WName) (h : x ∈ s.events) :
    x ∈ (clearWidget w s).events := by
  unfold clearWidget
  split
  · exact h
  · have he : (setW w "" s).events = s.events := by cases w <;> rfl
    split <;> simp [he, h]

theorem events_clearWidget_self {w : WName} {s : Ctrl}
    (h1 : getW w s ≠ "") (h2 : hasCbF w s = true) :
    w ∈ (clearWidget w s).events := by
  unfold clearWidget
  have he : (setW w "" s).events = s.events := by cases w <;> rfl
  have hc : hasCbF w (setW w "" s) = true := by rw [hasCb_setW]; exact h2
  simp [h1, hc, he]

/-- Values after the clearing loop of part_000: every listed widget is
empty, every other widget is untouched. -/
theorem getW_foldClear (l : List WName) (w : WName) (s : Ctrl) :
    getW w (l.foldl (fun acc x => clearWidget x acc) s) =
      if w ∈ l then "" else getW w s := by
  induction l generalizing s with
  | nil => simp
  | cons x xs ih =>
    simp only [List.foldl_cons, ih, getW_clearWidget, List.mem_cons]
    by_cases hx : w = x <;> by_cases hm : w ∈ xs <;> simp [hx, hm]

theorem prevElt_foldClear (l : List WName) (s : Ctrl) :
    (l.foldl (fun acc x => clearWidget x acc) s).prevElt = s.prevElt := by
  induction l generalizing s with
  | nil => rfl
  | cons x xs ih => simp [List.foldl_cons, ih, prevElt_clearWidget]

theorem deferred_foldClear (l : List WName) (s : Ctrl) :
    (l.foldl (fun acc x => clearWidget x acc) s).deferred = s.deferred := by
  induction l generalizing s with
  | nil => rfl
  | cons x xs ih => simp [List.foldl_cons, ih, deferred_clearWidget]

theorem hasCb_foldClear (l : List WName) (w : WName) (s : Ctrl) :
    hasCbF w (l.foldl (fun acc x => clearWidget x acc) s) = hasCbF w s := by
  induction l generalizing s with
  | nil => rfl
  | cons x xs ih => simp [List.foldl_cons, ih, hasCb_clearWidget]

theorem mem_events_foldClear_mono {x : WName} (l : List WName) {s : Ctrl}
    (h : x ∈ s.events) :
    x ∈ (l.foldl (fun acc y => clearWidget y acc) s).events := by
  induction l generalizing s with
  | nil => exact h
  | cons y ys ih => exact ih (mem_events_clearWidget y h)

/-- Every widget of the list that held a non-empty value and carries a
callback receives a synthetic empty-value callback during the loop. -/
theorem mem_events_foldClear {w : WName} (l : List WName) {s : Ctrl}
    (hnd : l.Nodup) (hw : w ∈ l) (h1 : getW w s ≠ "") (h2 : hasCbF w s = true) :
    w ∈ (l.foldl (fun acc y => clearWidget y acc) s).events := by
  induction l generalizing s with
  | nil => cases hw
  | cons x xs ih =>
    rcases List.mem_cons.mp hw with rfl | hmem
    · exact mem_events_foldClear_mono xs (events_clearWidget_self h1 h2)
    · have hne : w ≠ x := by
        rintro rfl
        exact (List.nodup_cons.mp hnd).1 hmem
      refine ih (List.nodup_cons.mp hnd).2 hmem ?_ ?_
      · rw [getW_clearWidget]; simp [hne, h1]
      · rw [hasCb_clearWidget]; exact h2

/-! ### Behavior of the part_000 clearing pass and preview functions -/

theorem getW_clearPass (a : ActiveInput) (w : WName) (s : Ctrl) :
    getW w (clearOtherInputsF a s) =
      if w ∈ clearingRules a then "" else getW w s := by
  unfold clearOtherInputsF
  split <;> simp [getW_foldClear]

theorem deferred_clearPass (a : ActiveInput) (s : Ctrl) :
    (clearOtherInputsF a s).deferred =
      if a = .paste then s.deferred else s.deferred ++ [a] := by
  unfold clearOtherInputsF hidePrevF
  split <;> simp [deferred_foldClear]

theorem prevElt_clearPass (a : ActiveInput) (s : Ctrl) :
    (clearOtherInputsF a s).prevElt =
      s.prevElt.map (fun e => { e with visible := false }) := by
  unfold clearOtherInputsF hidePrevF
  split <;> simp [prevElt_foldClear]

theorem previewShown_clearPass (a : ActiveInput) (s : Ctrl) :
    previewShown (clearOtherInputsF a s) = false := by
  unfold previewShown
  rw [prevElt_clearPass]
  cases s.prevElt <;> simp

theorem mem_events_clearPass {a : ActiveInput} {w : WName} {s : Ctrl}
    (hw : w ∈ clearingRules a) (h1 : getW w s ≠ "") (h2 : hasCbF w s = true) :
    w ∈ (clearOtherInputsF a s).events := by
  have hnd : (clearingRules a).Nodup := by cases a <;> decide
  have hm := mem_events_foldClear (clearingRules a) hnd hw h1 h2
  unfold clearOtherInputsF hidePrevF
  split <;> simpa using hm

theorem getW_updatePreviewF (a : ActiveInput) (v : String) (w : WName) (s : Ctrl) :
    getW w (updatePreviewF a v s) = getW w s := by
  cases a <;> cases hp : s.prevElt <;> simp only [updatePreviewF, hp] <;>
    try split_ifs
  all_goals first
    | rfl
    | (cases w <;> rfl)

theorem getW_validateB64 (v : String) (w : WName) (s : Ctrl) :
    getW w (validateB64 v s) = getW w s := by
  unfold validateB64
  split
  · split <;> simp [getW_updatePreviewF]
  · split <;> simp [getW_updatePreviewF]

theorem deferred_updatePreviewF (a : ActiveInput) (v : String) (s : Ctrl) :
    (updatePreviewF a v s).deferred = s.deferred := by
  cases a <;> cases hp : s.prevElt <;> simp only [updatePreviewF, hp] <;>
    try split_ifs
  all_goals rfl

theorem deferred_validateB64 (v : String) (s : Ctrl) :
    (validateB64 v s).deferred = s.deferred := by
  unfold validateB64 hidePrevF
  split
  · split <;> simp [deferred_updatePreviewF]
  · split <;> simp [deferred_updatePreviewF]

theorem previewShown_hidePrev (s : Ctrl) : previewShown (hidePrevF s) = false := by
  unfold previewShown hidePrevF
  cases s.prevElt <;> simp

theorem previewShown_validateB64_reject {v : String} (s : Ctrl)
    (hrej : acceptsBase64 v = false) (hcur : previewShown s = false) :
    previewShown (validateB64 v s) = false := by
  unfold validateB64
  unfold acceptsBase64 at hrej
  split
  · next hpre =>
    rw [if_pos hpre] at hrej
    simp [hrej, hcur]
  · next hpre =>
    rw [if_neg hpre] at hrej
    simp [hrej, previewShown_hidePrev]

/-! ### String-level lemmas: a data-URL prefix defeats the decode probe -/

theorem jsStartsWithL_exists : ∀ {p l : List Char}, jsStartsWithL p l = true →
    ∃ t, l = p ++ t := by
  intro p
  induction p with
  | nil => exact fun h => ⟨_, rfl⟩
  | cons c cs ih =>
    intro l h
    cases l with
    | nil => simp [jsStartsWithL] at h
    | cons d ds =>
      simp only [jsStartsWithL, Bool.and_eq_true, decide_eq_true_eq] at h
      obtain ⟨t, ht⟩ := ih h.2
      exact ⟨t, by rw [h.1, ht]; rfl⟩

theorem colon_mem_of_dataImage {v : String} (h : jsStartsWith v "data:image/" = true) :
    ':' ∈ (jsSubstringTo v 100).data := by
  unfold jsStartsWith at h
  obtain ⟨t, ht⟩ := jsStartsWithL_exists h
  show ':' ∈ v.data.take 100
  rw [ht, List.take_append_eq_append_take]
  exact List.mem_append_left _ (by decide)

theorem mem_dropLast_aux (c x : Char) : ∀ (l : List Char), c ∈ l →
    l.getLast? = some x → c ≠ x → c ∈ l.dropLast := by
  intro l
  induction l with
  | nil => exact fun h _ _ => absurd h (List.not_mem_nil c)
  | cons a as ih =>
    intro hc hl hne
    cases as with
    | nil =>
      simp only [List.mem_singleton] at hc
      simp only [List.getLast?_singleton, Option.some.injEq] at hl
      exact absurd (hc.trans hl) hne
    | cons b bs =>
      rcases List.mem_cons.mp hc with rfl | hmem
      · exact List.mem_cons_self c _
      · have hl2 : (b :: bs).getLast? = some x := by
          rwa [List.getLast?_cons_cons] at hl
        exact List.mem_cons_of_mem a (ih hmem hl2 hne)

theorem mem_stripPad {c : Char} {l : List Char} (hc : c ∈ l) (hne : c ≠ '=') :
    c ∈ stripPad l := by
  unfold stripPad
  split
  · next h1 =>
    have hd : c ∈ l.dropLast := mem_dropLast_aux c '=' l hc h1 hne
    split
    · next h2 => exact mem_dropLast_aux c '=' l.dropLast hd h2 hne
    · exact hd
  · exact hc

theorem mem_atobPrep {s : String} (h : ':' ∈ s.data) : ':' ∈ atobPrep s := by
  have h0 : ':' ∈ s.data.filter (fun c => !(isB64Ws c)) :=
    List.mem_filter.mpr ⟨h, by decide⟩
  unfold atobPrep
  split
  · exact mem_stripPad h0 (by decide)
  · exact h0

theorem atobOk_false_of_colon {s : String} (h : ':' ∈ s.data) : atobOk s = false := by
  have hall : (atobPrep s).all isB64Alpha = false := by
    apply Bool.eq_false_iff.mpr
    intro hall
    have := List.all_eq_true.mp hall ':' (mem_atobPrep h)
    simp [isB64Alpha] at this
  unfold atobOk
  rw [hall, Bool.and_false]

/-- On a `data:image/`-prefixed value the decode probe necessarily fails
(the colon at position 4 survives whitespace and padding stripping and is
not a base64-alphabet character). -/
theorem atobOk_probe_false_of_dataImage {v : String}
    (h : jsStartsWith v "data:image/" = true) :
    atobOk (jsSubstringTo v 100) = false :=
  atobOk_false_of_colon (colon_mem_of_dataImage h)

/-- The implemented acceptance condition coincides with the disjunctive
criterion worded in the specification. -/
theorem acceptsBase64_eq_spec (v : String) : acceptsBase64 v = specAcceptB64 v := by
  unfold acceptsBase64 specAcceptB64
  by_cases h : jsStartsWith v "data:image/" = true
  · rw [if_pos h, h, atobOk_probe_false_of_dataImage h]
    simp
  · rw [if_neg h, Bool.eq_false_iff.mpr h]
    simp

/-! ### Projection lemmas for the part_001 state -/

theorem getW3_setW3 (w w' : W3) (v : String) (s : Ctrl3) :
    getW3 w' (setW3 w v s) = if w' = w then v else getW3 w' s := by
  cases w <;> cases w' <;> simp [getW3, setW3]

theorem hasCb3_setW3 (w w' : W3) (v : String) (s : Ctrl3) :
    hasCb3 w' (setW3 w v s) = hasCb3 w' s := by
  cases w <;> cases w' <;> rfl

@[simp] theorem getW3_upd_events (w : W3) (s : Ctrl3) (e : List W3) :
    getW3 w { s with events := e } = getW3 w s := by cases w <;> rfl

theorem getW3_clearWidget3 (w w' : W3) (s : Ctrl3) :
    getW3 w' (clearWidget3 w s) = if w' = w then "" else getW3 w' s := by
  unfold clearWidget3
  by_cases h : getW3 w s = ""
  · simp only [h, if_true, reduceIte]
    split
    · next he => rw [he]; exact h.symm ▸ rfl
    · rfl
  · simp only [h, if_false, reduceIte]
    split <;> simp [getW3_setW3]

theorem hasCb3_clearWidget3 (w w' : W3) (s : Ctrl3) :
    hasCb3 w' (clearWidget3 w s) = hasCb3 w' s := by
  unfold clearWidget3
  split
  · rfl
  · have : hasCb3 w' { setW3 w "" s with events := (setW3 w "" s).events ++ [w] } =
        hasCb3 w' (setW3 w "" s) := by cases w' <;> rfl
    split <;> simp [this, hasCb3_setW3]

theorem prevElt_clearWidget3 (w : W3) (s : Ctrl3) :
    (clearWidget3 w s).prevElt = s.prevElt := by
  have h1 : (setW3 w "" s).prevElt = s.prevElt := by cases w <;> rfl
  unfold clearWidget3
  split
  · rfl
  · split <;> simp [h1]

theorem deferred_clearWidget3 (w : W3) (s : Ctrl3) :
    (clearWidget3 w s).deferred = s.deferred := by
  have h1 : (setW3 w "" s).deferred = s.deferred := by cases w <;> rfl
  unfold clearWidget3
  split
  · rfl
  · split <;> simp [h1]

theorem mem_events_clearWidget3 {x : W3} {s : Ctrl3} (w : W3) (h : x ∈ s.events) :
    x ∈ (clearWidget3 w s).events := by
  have he : (setW3 w "" s).events = s.events := by cases w <;> rfl
  unfold clearWidget3
  split
  · exact h
  · split <;> simp [he, h]

theorem events_clearWidget3_self {w : W3} {s : Ctrl3}
    (h1 : getW3 w s ≠ "") (h2 : hasCb3 w s = true) :
    w ∈ (clearWidget3 w s).events := by
  have he : (setW3 w "" s).events = s.events := by cases w <;> rfl
  have hc : hasCb3 w (setW3 w "" s) = true := by rw [hasCb3_setW3]; exact h2
  unfold clearWidget3
  simp [h1, hc, he]

theorem getW3_foldClear (l : List W3) (w : W3) (s : Ctrl3) :
    getW3 w (l.foldl (fun acc x => clearWidget3 x acc) s) =
      if w ∈ l then "" else getW3 w s := by
  induction l generalizing s with
  | nil => simp
  | cons x xs ih =>
    simp only [List.foldl_cons, ih, getW3_clearWidget3, List.mem_cons]
    by_cases hx : w = x <;> by_cases hm : w ∈ xs <;> simp [hx, hm]

theorem prevElt_foldClear3 (l : List W3) (s : Ctrl3) :
    (l.foldl (fun acc x => clearWidget3 x acc) s).prevElt = s.prevElt := by
  induction l generalizing s with
  | nil => rfl
  | cons x xs ih => simp [List.foldl_cons, ih, prevElt_clearWidget3]

theorem deferred_foldClear3 (l : List W3) (s : Ctrl3) :
    (l.foldl (fun acc x => clearWidget3 x acc) s).deferred = s.deferred := by
  induction l generalizing s with
  | nil => rfl
  | cons x xs ih => simp [List.foldl_cons, ih, deferred_clearWidget3]

theorem mem_events_foldClear3_mono {x : W3} (l : List W3) {s : Ctrl3}
    (h : x ∈ s.events) :
    x ∈ (l.foldl (fun acc y => clearWidget3 y acc) s).events := by
  induction l generalizing s with
  | nil => exact h
  | cons y ys ih => exact ih (mem_events_clearWidget3 y h)

theorem mem_events_foldClear3 {w : W3} (l : List W3) {s : Ctrl3}
    (hnd : l.Nodup) (hw : w ∈ l) (h1 : getW3 w s ≠ "") (h2 : hasCb3 w s = true) :
    w ∈ (l.foldl (fun acc y => clearWidget3 y acc) s).events := by
  induction l generalizing s with
  | nil => cases hw
  | cons x xs ih =>
    rcases List.mem_cons.mp hw with rfl | hmem
    · exact mem_events_foldClear3_mono xs (events_clearWidget3_self h1 h2)
    · have hne : w ≠ x := by
        rintro rfl
        exact (List.nodup_cons.mp hnd).1 hmem
      refine ih (List.nodup_cons.mp hnd).2 hmem ?_ ?_
      · rw [getW3_clearWidget3]; simp [hne, h1]
      · rw [hasCb3_clearWidget3]; exact h2

@[simp] theorem getW3_hidePrev (w : W3) (s : Ctrl3) :
    getW3 w (hidePrev3 s) = getW3 w s := by cases w <;> rfl

@[simp] theorem getW3_upd_deferred (w : W3) (s : Ctrl3) (d : List Active3) :
    getW3 w { s with deferred := d } = getW3 w s := by cases w <;> rfl

theorem deferred_hidePrev3 (s : Ctrl3) : (hidePrev3 s).deferred = s.deferred := rfl

theorem events_hidePrev3 (s : Ctrl3) : (hidePrev3 s).events = s.events := rfl

theorem getW3_clearPass3 (a : Active3) (w : W3) (s : Ctrl3) :
    getW3 w (clearOtherInputs3 a s) =
      if w ∈ rules3 a then "" else getW3 w s := by
  unfold clearOtherInputs3
  simp [getW3_foldClear]

theorem deferred_clearPass3 (a : Active3) (s : Ctrl3) :
    (clearOtherInputs3 a s).deferred = s.deferred ++ [a] := by
  unfold clearOtherInputs3
  simp [deferred_hidePrev3, deferred_foldClear3]

theorem mem_events_clearPass3 {a : Active3} {w : W3} {s : Ctrl3}
    (hw : w ∈ rules3 a) (h1 : getW3 w s ≠ "") (h2 : hasCb3 w s = true) :
    w ∈ (clearOtherInputs3 a s).events := by
  have hnd : (rules3 a).Nodup := by cases a <;> decide
  have hm := mem_events_foldClear3 (rules3 a) hnd hw h1 h2
  unfold clearOtherInputs3
  simpa [events_hidePrev3] using hm

theorem getW3_updatePreview3 (a : Active3) (v : String) (w : W3) (s : Ctrl3) :
    getW3 w (updatePreview3 a v s) = getW3 w s := by
  cases a <;> cases hp : s.prevElt <;> simp only [updatePreview3, hp] <;>
    try split_ifs
  all_goals first
    | rfl
    | (cases w <;> rfl)

theorem getW3_validateB64R (v : String) (w : W3) (s : Ctrl3) :
    getW3 w (validateB64R v s) = getW3 w s := by
  unfold validateB64R
  split
  · split <;> simp [getW3_updatePreview3]
  · have : getW3 w (hidePrev3 s) = getW3 w s := by cases w <;> rfl
    split <;> simp [getW3_updatePreview3, this]

theorem deferred_updatePreview3 (a : Active3) (v : String) (s : Ctrl3) :
    (updatePreview3 a v s).deferred = s.deferred := by
  cases a <;> cases hp : s.prevElt <;> simp only [updatePreview3, hp] <;>
    try split_ifs
  all_goals rfl

theorem deferred_validateB64R (v : String) (s : Ctrl3) :
    (validateB64R v s).deferred = s.deferred := by
  unfold validateB64R
  split
  · split <;> simp [deferred_updatePreview3]
  · split <;> simp [deferred_updatePreview3, hidePrev3]

/-! ### Lemmas for the imgloader.js variant -/

theorem getJS_clearJS (a : JsActive) (w : JsW) (s : StJS) :
    getJS w (clearOtherInputsJS a s) =
      if w = jsActiveWidget a then getJS w s else "" := by
  cases a <;> cases w <;> rfl

theorem events_clearJS (a : JsActive) (s : StJS) :
    (clearOtherInputsJS a s).events = s.events := by
  cases a <;> rfl

/-! ### Lemmas for cleanup and the deferred re-check -/

theorem cleanupE_ok (s : Ctrl) : cleanupE s = Except.ok (cleanupRun s) := by
  unfold cleanupE cleanupRun removeChildE
  by_cases hA : s.prevAttached <;> simp [hA]

theorem cleanupRun_idem (s : Ctrl) : cleanupRun (cleanupRun s) = cleanupRun s := by
  cases s with
  | mk i f b p bc pc pe pa li dr oc bg co nr ev de pl =>
    cases pa <;> cases nr <;> rcases oc with _ | ⟨b1, c1⟩ <;> rfl

theorem prevAttached_cleanupRun (s : Ctrl) : (cleanupRun s).prevAttached = false := by
  cases s with
  | mk i f b p bc pc pe pa li dr oc bg co nr ev de pl =>
    cases pa <;> cases nr <;> rcases oc with _ | ⟨b1, c1⟩ <;> rfl

theorem prevAttached_updatePreviewF (a : ActiveInput) (v : String) (s : Ctrl) :
    (updatePreviewF a v s).prevAttached = s.prevAttached := by
  cases a <;> cases hp : s.prevElt <;> simp only [updatePreviewF, hp] <;>
    try split_ifs
  all_goals rfl

theorem prevAttached_runDeferredF (a : ActiveInput) (s : Ctrl) :
    (runDeferredF a s).prevAttached = s.prevAttached := by
  cases a <;> simp only [runDeferredF] <;> try split_ifs
  all_goals simp [prevAttached_updatePreviewF]

theorem runDeferredE_ok (a : ActiveInput) (s : Ctrl) :
    runDeferredE a s = Except.ok (runDeferredF a s) := by
  cases a <;> simp only [runDeferredE, runDeferredF]
  all_goals
    split_ifs with hv
    · rfl
    · cases hp : s.prevElt <;> simp [updatePreviewF, hp]

/-! ### Lemmas for the fuel-indexed callback model -/

theorem activeVal_empty : activeVal "" = false := rfl

theorem invokeCb_inactive (fuel : Nat) (w : WName) (v : String) (st : V4)
    (h : (isWrapped w && activeVal v) = false) :
    invokeCb (fuel + 1) w v st = some (st, 0) := by
  simp [invokeCb, h]

theorem setV_empty_self {w : WName} {st : V4} (h : getV w st = "") :
    setV w "" st = st := by
  cases st with
  | mk i f b p => cases w <;> simp_all [getV, setV]

theorem clearAllV_cons (w : WName) (ws : List WName) (st : V4) :
    clearAllV (w :: ws) st = clearAllV ws (setV w "" st) := rfl

theorem clearSeq_succ (fuel : Nat) (l : List WName) (st : V4) :
    clearSeq (fuel + 1) l st = some (clearAllV l st, 0) := by
  induction l generalizing st with
  | nil => simp [clearSeq, clearAllV]
  | cons w ws ih =>
    rw [clearSeq]
    by_cases h : getV w st = ""
    · rw [if_pos h, ih, clearAllV_cons, setV_empty_self h]
    · rw [if_neg h, invokeCb_inactive fuel w "" (setV w "" st)
        (by simp [activeVal_empty])]
      simp [ih, clearAllV_cons]

theorem invokeCb_closed (fuel : Nat) (w : WName) (v : String) (st : V4) :
    invokeCb (fuel + 2) w v st =
      some (invokeResult w v st, if isWrapped w && activeVal v then 1 else 0) := by
  show invokeCb ((fuel + 1) + 1) w v st = _
  rw [invokeCb]
  by_cases h : (isWrapped w && activeVal v) = true
  · rw [if_pos h, clearSeq_succ]
    simp [invokeResult, h]
  · rw [if_neg h]
    simp only [Bool.not_eq_true] at h
    simp [invokeResult, h]

theorem bval_le_one (x : String) : bval x ≤ 1 := by
  unfold bval
  split <;> omega

theorem bval_empty : bval "" = 0 := rfl

/-! ### Claim theorems -/

/-- C1, counterexample. The claim states that under the full 4-source
policy at most one of {upload, filepath, base64, pasted} is non-empty
after each clearing pass, for every activation sequence. Activating
`pasted` and then `filepath` from the initial state leaves both `pasted`
and `filepath` non-empty (the `filepath` rule clears only the upload and
base64 widgets), so two sources are non-empty after the second pass. -/
theorem claim1_counterexample :
    ¬ (nvals4 (run4 [(ActiveInput.paste, "data:image/png;base64,AAA="),
        (ActiveInput.filepath, "x.png")] initCtrl) ≤ 1) ∧
    (run4 [(ActiveInput.paste, "data:image/png;base64,AAA="),
        (ActiveInput.filepath, "x.png")] initCtrl).pasted = "data:image/png;base64,AAA=" ∧
    (run4 [(ActiveInput.paste, "data:image/png;base64,AAA="),
        (ActiveInput.filepath, "x.png")] initCtrl).filepath = "x.png" := by
  refine ⟨by decide, by decide, by decide⟩

/-- C1, amended. After each clearing pass (an activation with a truthy
non-blank value, from any state), at most one of {upload, filepath,
base64} holds a non-empty value — under the full 4-source policy of
part_000 (where the `pasted` source may additionally stay non-empty,
since no lower-precedence activation clears it) as well as under the
reduced 3-source policy of part_001, where {upload, filepath, base64}
are all the sources, so at most one source in total is non-empty. -/
theorem claim1_amended (s : Ctrl) (a : ActiveInput) (v : String)
    (s3 : Ctrl3) (a3 : Active3) (v3 : String)
    (h : activeVal v = true) (h3 : activeVal v3 = true) :
    nvals3 (activateF a v s) ≤ 1 ∧ nvalsR (activate3 a3 v3 s3) ≤ 1 := by
  constructor
  · cases a <;>
      (simp only [activateF, base64InputHandlerF, h, if_true]
       simp only [nvals3, getW_updatePreviewF, getW_validateB64, getW_clearPass]
       simp [clearingRules, getW, bval_empty, bval_le_one])
  · cases a3 <;>
      (simp only [activate3, h3, if_true]
       simp only [nvalsR, getW3_updatePreview3, getW3_validateB64R, getW3_clearPass3]
       simp [rules3, getW3, bval_empty, bval_le_one])

/-- C1, witness for the amended theorem. -/
theorem claim1_amended_witness :
    activeVal "x.png" = true ∧ activeVal "y.png" = true ∧
    (nvals3 (activateF .filepath "x.png" initCtrl) ≤ 1 ∧
     nvalsR (activate3 .base64 "y.png" initCtrl3) ≤ 1) :=
  ⟨by decide, by decide,
   claim1_amended initCtrl .filepath "x.png" initCtrl3 .base64 "y.png"
     (by decide) (by decide)⟩

/-- C2, counterexample. The claim states that every clearing-engine
variant in the codebase clears exactly what the corresponding
specification table lists. The js/imgloader.js variant, activated with
`filepath`, clears the `pasted` widget — which neither table lists for
`filepath` (the full table has `filepath` clearing only upload and
base64, and the upload widget does not even exist in this variant). -/
theorem claim2_counterexample :
    sJS0.pasted ≠ "" ∧
    (clearOtherInputsJS .filepath sJS0).pasted = "" ∧
    specFullClears .filepath .pasted = false := by
  refine ⟨by decide, by decide, by decide⟩

/-- C2, amended. The part_000 clearing pass clears exactly the sources of
the specification's full table and the part_001 pass exactly those of the
reduced table (in both, a widget's value after the pass is empty iff the
table lists it, and untouched otherwise); the third variant,
js/imgloader.js, instead clears every source other than the activated one
among {filepath, base64, pasted} and has no upload widget. -/
theorem claim2_amended (a : ActiveInput) (w : WName) (s : Ctrl)
    (a3 : Active3) (w3 : W3) (s3 : Ctrl3) (aj : JsActive) (wj : JsW) (sj : StJS) :
    getW w (clearOtherInputsF a s) =
      (if specFullClears a w then "" else getW w s) ∧
    getW3 w3 (clearOtherInputs3 a3 s3) =
      (if specReducedClears a3 w3 then "" else getW3 w3 s3) ∧
    getJS wj (clearOtherInputsJS aj sj) =
      (if wj = jsActiveWidget aj then getJS wj sj else "") := by
  refine ⟨?_, ?_, getJS_clearJS aj wj sj⟩
  · rw [getW_clearPass]
    cases a <;> cases w <;> simp [clearingRules, specFullClears]
  · rw [getW3_clearPass3]
    cases a3 <;> cases w3 <;> simp [rules3, specReducedClears]

/-- C3, counterexample. The claim states that whenever the clearing pass
clears a non-empty source it also invokes that source's change callback
with the empty value. In js/imgloader.js the pass clears the non-empty
`filepath` widget (whose callback exists — setup wrapped it) without
invoking any callback: the synthetic-event log stays empty. -/
theorem claim3_counterexample :
    sJS0.filepath ≠ "" ∧
    (clearOtherInputsJS .base64 sJS0).filepath = "" ∧
    (clearOtherInputsJS .base64 sJS0).events = [] := by
  refine ⟨by decide, by decide, by decide⟩

/-- C3, amended. In the part_000 and part_001 variants, every source
listed for the active input that held a non-empty value and carries a
callback is set to the empty string and receives its own synthetic
empty-value callback during the clearing pass; the js/imgloader.js
variant only empties widget values and never invokes a callback. -/
theorem claim3_amended (a : ActiveInput) (w : WName) (s : Ctrl)
    (a3 : Active3) (w3 : W3) (s3 : Ctrl3) (aj : JsActive) (sj : StJS)
    (hw : w ∈ clearingRules a) (h1 : getW w s ≠ "") (h2 : hasCbF w s = true)
    (hw3 : w3 ∈ rules3 a3) (h13 : getW3 w3 s3 ≠ "") (h23 : hasCb3 w3 s3 = true) :
    (getW w (clearOtherInputsF a s) = "" ∧ w ∈ (clearOtherInputsF a s).events) ∧
    (getW3 w3 (clearOtherInputs3 a3 s3) = "" ∧
      w3 ∈ (clearOtherInputs3 a3 s3).events) ∧
    (clearOtherInputsJS aj sj).events = sj.events := by
  refine ⟨⟨?_, mem_events_clearPass hw h1 h2⟩,
    ⟨?_, mem_events_clearPass3 hw3 h13 h23⟩, events_clearJS aj sj⟩
  · rw [getW_clearPass]; simp [hw]
  · rw [getW3_clearPass3]; simp [hw3]

/-- C3, witness for the amended theorem. -/
theorem claim3_amended_witness :
    (WName.filepath ∈ clearingRules .paste ∧
     getW .filepath { initCtrl with filepath := "x.png" } ≠ "" ∧
     hasCbF .filepath { initCtrl with filepath := "x.png" } = true ∧
     W3.filepath ∈ rules3 .base64 ∧
     getW3 .filepath { initCtrl3 with filepath := "y.png" } ≠ "" ∧
     hasCb3 .filepath { initCtrl3 with filepath := "y.png" } = true) ∧
    ((getW .filepath (clearOtherInputsF .paste { initCtrl with filepath := "x.png" }) = "" ∧
      WName.filepath ∈ (clearOtherInputsF .paste { initCtrl with filepath := "x.png" }).events) ∧
     (getW3 .filepath (clearOtherInputs3 .base64 { initCtrl3 with filepath := "y.png" }) = "" ∧
      W3.filepath ∈ (clearOtherInputs3 .base64 { initCtrl3 with filepath := "y.png" }).events) ∧
     (clearOtherInputsJS .paste sJS0).events = sJS0.events) :=
  ⟨⟨by decide, by decide, by decide, by decide, by decide, by decide⟩,
   claim3_amended .paste .filepath { initCtrl with filepath := "x.png" }
     .base64 .filepath { initCtrl3 with filepath := "y.png" } .paste sJS0
     (by decide) (by decide) (by decide) (by decide) (by decide) (by decide)⟩

/-- C4. For every truthy non-blank base64 input value, the part_000 input
handler runs the clearing pass regardless of the validation outcome (the
upload and filepath widgets end empty and the pasted widget is untouched,
since the base64 rule does not list it), the base64 widget keeps the
typed value, and when validation rejects the value the preview ends
hidden. -/
theorem claim4_theorem (v : String) (s : Ctrl) (h : activeVal v = true) :
    getW .image (base64InputHandlerF v s) = "" ∧
    getW .filepath (base64InputHandlerF v s) = "" ∧
    getW .base64 (base64InputHandlerF v s) = v ∧
    getW .pasted (base64InputHandlerF v s) = getW .pasted s ∧
    (acceptsBase64 v = false → previewShown (base64InputHandlerF v s) = false) := by
  have hun : base64InputHandlerF v s =
      validateB64 v (clearOtherInputsF .base64 { s with base64 := v }) := by
    simp [base64InputHandlerF, h]
  refine ⟨?_, ?_, ?_, ?_, ?_⟩
  · rw [hun, getW_validateB64, getW_clearPass]; simp [clearingRules]
  · rw [hun, getW_validateB64, getW_clearPass]; simp [clearingRules]
  · rw [hun, getW_validateB64, getW_clearPass]; simp [clearingRules, getW]
  · rw [hun, getW_validateB64, getW_clearPass]; simp [clearingRules, getW]
  · intro hrej
    rw [hun]
    exact previewShown_validateB64_reject _ hrej (previewShown_clearPass _ _)

/-- C4, witness. -/
theorem claim4_witness :
    activeVal "data:image/png" = true ∧
    (getW .image (base64InputHandlerF "data:image/png" initCtrl) = "" ∧
     getW .filepath (base64InputHandlerF "data:image/png" initCtrl) = "" ∧
     getW .base64 (base64InputHandlerF "data:image/png" initCtrl) = "data:image/png" ∧
     getW .pasted (base64InputHandlerF "data:image/png" initCtrl) = getW .pasted initCtrl ∧
     (acceptsBase64 "data:image/png" = false →
       previewShown (base64InputHandlerF "data:image/png" initCtrl) = false)) :=
  ⟨by decide, claim4_theorem "data:image/png" initCtrl (by decide)⟩

/-- C5. Base64 validation accepts a value if and only if it is prefixed
`data:image/` with a non-empty payload after the first comma or its first
100 characters decode as base64 (the two criteria coincide because a
data-URL prefix always defeats the decode probe); and after handling any
truthy non-blank input value that validation rejects, the preview ends
hidden. -/
theorem claim5_theorem (v u : String) (s : Ctrl)
    (hu : activeVal u = true) (hrej : acceptsBase64 u = false) :
    acceptsBase64 v = specAcceptB64 v ∧
    previewShown (base64InputHandlerF u s) = false := by
  refine ⟨acceptsBase64_eq_spec v, ?_⟩
  have hun : base64InputHandlerF u s =
      validateB64 u (clearOtherInputsF .base64 { s with base64 := u }) := by
    simp [base64InputHandlerF, hu]
  rw [hun]
  exact previewShown_validateB64_reject _ hrej (previewShown_clearPass _ _)

/-- C5, witness. -/
theorem claim5_witness :
    activeVal "data:image/png" = true ∧ acceptsBase64 "data:image/png" = false ∧
    (acceptsBase64 "QQQ" = specAcceptB64 "QQQ" ∧
     previewShown (base64InputHandlerF "data:image/png" initCtrl) = false) :=
  ⟨by decide, by decide,
   claim5_theorem "QQQ" "data:image/png" initCtrl (by decide) (by decide)⟩

/-- C6, counterexample. The claim states the preview update for the
just-activated source always goes through a deferred re-check and never
happens synchronously. Activating `paste` in part_000 performs the
preview update immediately during the pass (the preview element ends
visible with the pasted data URL) and schedules no deferred re-check. -/
theorem claim6_counterexample :
    (activateF .paste "data:image/png;base64,AAA=" initCtrl).deferred = [] ∧
    (activateF .paste "data:image/png;base64,AAA=" initCtrl).prevElt =
      some ⟨true, "data:image/png;base64,AAA="⟩ ∧
    previewShown (activateF .paste "data:image/png;base64,AAA=" initCtrl) = true := by
  refine ⟨by decide, by decide, by decide⟩

/-- C6, amended. The clearing pass schedules the 100 ms deferred preview
re-check (which re-reads the widget's then-current value) for every
non-paste activation in part_000 and for every activation in part_001;
the part_000 paste path instead updates the preview only synchronously,
and the handlers additionally perform immediate preview work. -/
theorem claim6_amended (a : ActiveInput) (v : String) (s : Ctrl)
    (a3 : Active3) (v3 : String) (s3 : Ctrl3)
    (hp : a ≠ .paste) (h : activeVal v = true) (h3 : activeVal v3 = true) :
    (activateF a v s).deferred = s.deferred ++ [a] ∧
    (activate3 a3 v3 s3).deferred = s3.deferred ++ [a3] := by
  constructor
  · cases a
    case paste => exact absurd rfl hp
    all_goals
      simp only [activateF, base64InputHandlerF, h, if_true]
      simp [deferred_updatePreviewF, deferred_validateB64, deferred_clearPass]
  · cases a3 <;>
      simp only [activate3, h3, if_true] <;>
      simp [deferred_updatePreview3, deferred_validateB64R, deferred_clearPass3]

/-- C6, witness for the amended theorem. -/
theorem claim6_amended_witness :
    (ActiveInput.filepath ≠ ActiveInput.paste ∧
     activeVal "x.png" = true ∧ activeVal "y.png" = true) ∧
    ((activateF .filepath "x.png" initCtrl).deferred =
       initCtrl.deferred ++ [ActiveInput.filepath] ∧
     (activate3 .image "y.png" initCtrl3).deferred =
       initCtrl3.deferred ++ [Active3.image]) :=
  ⟨⟨by decide, by decide, by decide⟩,
   claim6_amended .filepath "x.png" initCtrl .image "y.png" initCtrl3
     (by decide) (by decide) (by decide)⟩

/-- C7, counterexample. The claim states a deferred preview callback
firing after `cleanup()` is a no-op stopped by the preview-element
existence guard. After cleanup the controller still references the (now
detached) preview element — `cleanup` never nulls it — so the callback
passes the guard, raises no exception, and writes to the detached
element: the state visibly changes. -/
theorem claim7_counterexample :
    runDeferredE .base64 (cleanupRun { initCtrl with base64 := "AAA" }) =
      Except.ok (runDeferredF .base64 (cleanupRun { initCtrl with base64 := "AAA" })) ∧
    runDeferredF .base64 (cleanupRun { initCtrl with base64 := "AAA" }) ≠
      cleanupRun { initCtrl with base64 := "AAA" } ∧
    (runDeferredF .base64 (cleanupRun { initCtrl with base64 := "AAA" })).prevElt =
      some ⟨true, "data:image/png;base64,AAA"⟩ :=
  ⟨runDeferredE_ok _ _, by decide, by decide⟩

/-- C7, amended. A deferred preview callback firing after `cleanup()` has
run raises no exception (every access on its path is guarded) and leaves
the document unchanged — the preview element was already detached by
cleanup, so the document shows no preview before or after — but the
callback is not stopped by the previewElement existence guard, because
cleanup leaves the reference set, and it may still write to the detached
element. -/
theorem claim7_amended (a : ActiveInput) (s : Ctrl) :
    runDeferredE a (cleanupRun s) = Except.ok (runDeferredF a (cleanupRun s)) ∧
    docPreview (runDeferredF a (cleanupRun s)) = none ∧
    docPreview (cleanupRun s) = none := by
  refine ⟨runDeferredE_ok _ _, ?_, ?_⟩
  · unfold docPreview
    rw [prevAttached_runDeferredF, prevAttached_cleanupRun]
    simp
  · unfold docPreview
    rw [prevAttached_cleanupRun]
    simp

/-- C8. The `cleanup` method of part_000 never raises a duplicate-removal
error and is idempotent: the first call succeeds, a second call on the
cleaned state succeeds (the `previewElement?.parentNode` guard skips the
removal, the color-restore branch is skipped, and the back-reference
deletion is skipped), and its result is the same state. -/
theorem claim8_theorem (s : Ctrl) :
    cleanupE s = Except.ok (cleanupRun s) ∧
    cleanupE (cleanupRun s) = Except.ok (cleanupRun s) ∧
    cleanupRun (cleanupRun s) = cleanupRun s := by
  refine ⟨cleanupE_ok s, ?_, cleanupRun_idem s⟩
  rw [cleanupE_ok, cleanupRun_idem]

/-- C9. For every value — empty or not — delivered to a wrapped widget
callback (the `image` and `filepath` wrappers of part_000 and the
`filepath` wrapper of js/imgloader.js), the wrapper forwards the value to
the original callback whenever one exists and returns its result. -/
theorem claim9_theorem {ρ : Type} (orig : Option (String → ρ)) (v : String)
    (s : Ctrl) (sj : StJS) :
    (wrappedImageCb orig v s).2 = orig.map (fun f => f v) ∧
    (wrappedFilepathCb orig v s).2 = orig.map (fun f => f v) ∧
    (jsWrappedFilepathCb orig v sj).2 = orig.map (fun f => f v) := by
  refine ⟨?_, ?_, ?_⟩ <;> cases orig <;> rfl

/-- C10. A wrapped callback invoked with an empty or whitespace-only
value changes no controller state (no clearing pass, no preview update)
and only forwards to the original callback; consequently, in the
fuel-indexed model of the callback/clearing mutual recursion, recursion
depth 2 suffices for every invocation — the synthetic empty-value
callbacks fired by a clearing pass never re-enter — and an invocation
performs exactly one clearing pass when it is a wrapped callback on a
truthy non-blank value and zero otherwise. -/
theorem claim10_theorem {ρ : Type} (orig : Option (String → ρ)) (v0 : String)
    (s0 : Ctrl) (fuel : Nat) (w : WName) (v : String) (st : V4)
    (h : activeVal v0 = false) :
    (wrappedImageCb orig v0 s0).1 = s0 ∧
    (wrappedFilepathCb orig v0 s0).1 = s0 ∧
    (wrappedImageCb orig v0 s0).2 = orig.map (fun f => f v0) ∧
    invokeCb (fuel + 2) w v st = invokeCb 2 w v st ∧
    invokeCb 2 w v st =
      some (invokeResult w v st, if isWrapped w && activeVal v then 1 else 0) := by
  refine ⟨?_, ?_, ?_, ?_, invokeCb_closed 0 w v st⟩
  · simp [wrappedImageCb, h]
  · simp [wrappedFilepathCb, h]
  · cases orig <;> rfl
  · rw [invokeCb_closed fuel w v st]
    exact (invokeCb_closed 0 w v st).symm

/-- C10, witness. -/
theorem claim10_witness :
    activeVal "" = false ∧
    ((wrappedImageCb (none : Option (String → Nat)) "" initCtrl).1 = initCtrl ∧
     (wrappedFilepathCb (none : Option (String → Nat)) "" initCtrl).1 = initCtrl ∧
     (wrappedImageCb (none : Option (String → Nat)) "" initCtrl).2 =
       Option.map (fun f => f "") (none : Option (String → Nat)) ∧
     invokeCb (0 + 2) .filepath "x" initV4 = invokeCb 2 .filepath "x" initV4 ∧
     invokeCb 2 .filepath "x" initV4 =
       some (invokeResult .filepath "x" initV4,
         if isWrapped .filepath && activeVal "x" then 1 else 0)) :=
  ⟨rfl, claim10_theorem (none : Option (String → Nat)) "" initCtrl 0
    .filepath "x" initV4 rfl⟩

end ImgLoader
